import Mathlib

/-!
Verification of the A2A multi-agent messaging core: envelope construction and
child derivation, W3C trace-context propagation, the verifier quality gate,
planner fan-out, and the aggregating client's collection loop.  Definitions
are shallow embeddings of the corresponding Python functions in the
repository (common_envelope.py, common_trace.py, verify_service.py,
llm_opemai.py, chief_editor_service.py, section_editor_service.py,
writer_service.py, client.py).  Randomness (uuid4, secrets.token_hex) is
modelled by explicit fresh-value parameters; machine floats by rationals;
time by natural-number milliseconds.
-/

namespace A2A

/-- Payload values: the payload dictionaries the agents exchange hold strings,
integers, fractional scores, and lists of source strings. -/
inductive PVal where
  | s (v : String)
  | i (v : Int)
  | q (v : Rat)
  | ls (v : List String)
deriving DecidableEq, Repr

/-- A payload is a string-keyed dictionary, modelled as an association list
(the handlers build payload literals with distinct keys). -/
abbrev Payload := List (String × PVal)

/-- First-match lookup, modelling Python dict access. -/
def pLookup (p : Payload) (k : String) : Option PVal :=
  match p with
  | [] => none
  | (k', v) :: rest => if k' = k then some v else pLookup rest k

/-- Python truthiness of a payload value (empty string, zero, empty list are
falsy). -/
def pvalFalsy : PVal → Bool
  | .s v => v = ""
  | .i v => v = 0
  | .q v => v = 0
  | .ls v => v = []

/-- Rendering of a payload value as a string, modelling Python f-string
interpolation of a non-string value. -/
def pvalStr : PVal → String
  | .s v => v
  | .i v => toString v
  | .q v => toString v
  | .ls v => toString v

/-- Models the handlers' pattern `p.get(k, d)` for string-valued reads: the
default when the key is absent, the value's rendering otherwise. -/
def pGetStr (p : Payload) (k : String) (d : String) : String :=
  match pLookup p k with
  | none => d
  | some v => pvalStr v

/-- Models the handlers' pattern `p.get(k, d) or d`: additionally falls back
to the default on a falsy value. -/
def pGetStrOr (p : Payload) (k : String) (d : String) : String :=
  match pLookup p k with
  | none => d
  | some v => if pvalFalsy v then d else pvalStr v

/-- Models `p.get(k, [])` (with or without the trailing `or []`) for the
source lists the agents exchange; values outside the payload discipline read
as the empty list. -/
def pGetStrList (p : Payload) (k : String) : List String :=
  match pLookup p k with
  | some (.ls l) => l
  | _ => []

/-- Models `int(p.get(k, d))`: absent key gives the (integer) default,
integers pass through, fractional values truncate toward zero, and other
values make `int()` raise, which the handlers' catch-all turns into a
dropped message. -/
def pGetIntE (p : Payload) (k : String) (d : Int) : Except String Int :=
  match pLookup p k with
  | none => .ok d
  | some (.i v) => .ok v
  | some (.q v) => .ok (if 0 ≤ v then ⌊v⌋ else ⌈v⌉)
  | some (.s _) => .error "int() of non-numeric value"
  | some (.ls _) => .error "int() of non-numeric value"

/-! ## Trace context (common_trace.py / common_context.py)

A traceparent string is modelled as its character list.  `splitDash` models
Python's `str.split("-")`. -/

/-- Split a character list at every dash, modelling `parent.split("-")`
(splitting the empty string yields one empty field, as in Python). -/
def splitDash : List Char → List (List Char)
  | [] => [[]]
  | c :: cs =>
    if c = '-' then [] :: splitDash cs
    else
      match splitDash cs with
      | [] => [[c]]
      | f :: rest => (c :: f) :: rest

/-- Assemble `"00-" + tid + "-" + sid + "-" + fl` as a character list,
modelling the f-string in new_traceparent / child_traceparent. -/
def joinTp (tid sid fl : List Char) : List Char :=
  '0' :: '0' :: '-' :: (tid ++ '-' :: (sid ++ '-' :: fl))

/-- new_traceparent: fresh trace id and span id (supplied explicitly in place
of secrets.token_hex), fixed version "00" and flags "01". -/
def new_traceparent (freshTid freshSid : List Char) : List Char :=
  joinTp freshTid freshSid ['0', '1']

/-- child_traceparent: reuse the parent's trace id and flags with a fresh
span id; on a parent that does not split into exactly four fields the
unpacking raises and the code falls back to a brand-new traceparent. -/
def child_traceparent (parent : List Char) (freshTid freshSid : List Char) : List Char :=
  match splitDash parent with
  | [_v, tid, _sp, fl] => joinTp tid freshSid fl
  | _ => new_traceparent freshTid freshSid

/-- The trace-id component of a traceparent string, when it is well-formed
enough to parse (exactly four hyphen-separated fields). -/
def traceIdOf (s : List Char) : Option (List Char) :=
  match splitDash s with
  | [_, tid, _, _] => some tid
  | _ => none

/-- The span-id component of a traceparent string. -/
def spanIdOf (s : List Char) : Option (List Char) :=
  match splitDash s with
  | [_, _, sp, _] => some sp
  | _ => none

/-- A traceparent is well-formed when it splits into exactly four fields,
which is all child_traceparent's unpacking requires. -/
def TpWellFormed (s : List Char) : Prop := (splitDash s).length = 4

instance (s : List Char) : Decidable (TpWellFormed s) := by
  unfold TpWellFormed; infer_instance

/-- Lowercase hexadecimal digit, the alphabet of secrets.token_hex. -/
def isHexDigit (c : Char) : Bool := c.isDigit || ('a' ≤ c && c ≤ 'f')

/-- The supply for a trace or span id: a lowercase-hex string of the given
length, as produced by secrets.token_hex. -/
def IsHexOf (n : Nat) (s : List Char) : Prop :=
  s.length = n ∧ ∀ c ∈ s, isHexDigit c = true

instance (n : Nat) (s : List Char) : Decidable (IsHexOf n s) := by
  unfold IsHexOf; infer_instance

/-- Syntactic validity of a traceparent: four fields, version "00", a
32-hex-digit trace id, a 16-hex-digit span id, and 2-hex-digit flags. -/
def ValidTraceparent (s : List Char) : Prop :=
  ∃ v tid sp fl, splitDash s = [v, tid, sp, fl] ∧
    v = ['0', '0'] ∧ tid.length = 32 ∧ sp.length = 16 ∧ fl.length = 2 ∧
    (∀ c ∈ tid, isHexDigit c = true) ∧ (∀ c ∈ sp, isHexDigit c = true) ∧
    (∀ c ∈ fl, isHexDigit c = true)

/-! ## Envelope (common_envelope.py, hierarchical variant) -/

/-- The A2A envelope.  message_id models uuid4 by a fresh-supply counter;
traceparent is kept as a character list to reason about its parsing. -/
structure A2AEnvelope where
  envelope_version : String := "1.1"
  message_id : Nat
  conversation_id : String
  traceparent : List Char
  sender : String
  target : String
  ttl_ms : Int := 15000
  retries : Int := 0
  max_retries : Int := 2
  payload : Payload := []
deriving DecidableEq, Repr

/-- The field validators pydantic runs when an A2AEnvelope is constructed:
ttl_ms must be positive, retries and max_retries must be non-negative.
No other field is validated. -/
def validateEnvelope (e : A2AEnvelope) : Except String A2AEnvelope :=
  if e.ttl_ms ≤ 0 then .error "ttl_ms must be > 0"
  else if e.retries < 0 then .error "retries/max_retries must be >= 0"
  else if e.max_retries < 0 then .error "retries/max_retries must be >= 0"
  else .ok e

/-- What a successfully constructed envelope satisfies. -/
def EnvelopeWf (e : A2AEnvelope) : Prop :=
  0 < e.ttl_ms ∧ 0 ≤ e.retries ∧ 0 ≤ e.max_retries

instance (e : A2AEnvelope) : Decidable (EnvelopeWf e) := by
  unfold EnvelopeWf; infer_instance

/-- Python `x or default` on an optional string argument: None and the empty
string both fall back. -/
def strOr (o : Option String) (d : String) : String :=
  match o with
  | none => d
  | some v => if v = "" then d else v

/-- A2AEnvelope.child: derive a follow-up envelope in the same conversation.
freshId stands for the uuid4 message id, freshTid/freshSid for the hex ids
child_traceparent may draw.  The construction runs the pydantic validators,
so it can fail. -/
def A2AEnvelope.child (e : A2AEnvelope) (freshId : Nat) (freshTid freshSid : List Char)
    (sender target : Option String) (payload : Option Payload)
    (retries max_retries ttl_ms : Option Int) (keep_span : Bool) :
    Except String A2AEnvelope :=
  let new_tp := if keep_span then e.traceparent
                else child_traceparent e.traceparent freshTid freshSid
  validateEnvelope {
    message_id := freshId
    conversation_id := e.conversation_id
    traceparent := new_tp
    sender := strOr sender e.sender
    target := strOr target e.target
    ttl_ms := ttl_ms.getD e.ttl_ms
    retries := retries.getD e.retries
    max_retries := max_retries.getD e.max_retries
    payload := payload.getD []
  }

/-! ## Verifier scoring (llm_opemai.py) -/

/-- MAX_FEEDBACK_CHARS default. -/
def MAX_FEEDBACK_CHARS : Nat := 500

/-- Does the second list occur at the head of the first? -/
def listStartsWith : List Char → List Char → Bool
  | _, [] => true
  | [], _ :: _ => false
  | c :: cs, d :: ds => c = d && listStartsWith cs ds

/-- Substring occurrence, modelling Python's `needle in text`. -/
def containsSub : List Char → List Char → Bool
  | [], needle => needle.isEmpty
  | c :: rest, needle => listStartsWith (c :: rest) needle || containsSub rest needle

/-- heuristic_score: the deterministic fallback scorer.  Base 5.5 with small
bonuses for structure markers and length, capped at 10. -/
def heuristic_score (text : String) : Rat × String :=
  let t := text.toList
  let score : Rat := 5.5
  let score := if containsSub t ("Key point".toList) || containsSub t ("•".toList)
               then score + 0.5 else score
  let score := if containsSub t ("Takeaway".toList) then score + 0.3 else score
  let score := if 300 < text.length then score + 0.4 else score
  let feedback := if containsSub t ("Sources:".toList) then "Looks good."
                  else "Add 1–2 credible sources and tighten the lead sentence."
  (min score 10, feedback.take MAX_FEEDBACK_CHARS)

/-- The completion's reply as the scoring code inspects it: not JSON at all
(json.loads raises), or a JSON object whose score entry is numeric (float()
accepts it), absent (the .get default 0 applies), or present but such that
float() raises. -/
inductive LLMContent where
  | notJson
  | jsonScore (score : Rat) (feedback : Option String)
  | jsonNoScore (feedback : Option String)
  | jsonBadScore (feedback : Option String)
deriving DecidableEq, Repr

/-- Feedback normalisation: `(data.get("feedback") or "").strip()`, the
non-empty default, and truncation to MAX_FEEDBACK_CHARS. -/
def normalize_fb (fb : Option String) : String :=
  let f := (fb.getD "").trim
  let f := if f = "" then "Clarify the main point and provide a concrete example." else f
  f.take MAX_FEEDBACK_CHARS

/-- The parse-and-normalise tail of score_with_llm: unparsable content falls
back to the heuristic scorer; otherwise `float(data.get("score", 0))` is
clamped by `max(1.0, min(10.0, score))`. -/
def score_from_content (draft : String) (c : LLMContent) : Rat × String :=
  match c with
  | .notJson => heuristic_score draft
  | .jsonBadScore _ => heuristic_score draft
  | .jsonScore sc fb => (max 1 (min 10 sc), normalize_fb fb)
  | .jsonNoScore fb => (max 1 (min 10 0), normalize_fb fb)

/-! ## Subjects and service names -/

def CHIEF_EDITOR_IN_SUBJECT : String := "demo.chief.in"

def SECTION_EDITOR_IN_SUBJECT : String := "demo.section.in"

def WRITE_IN_SUBJECT : String := "demo.write.in"

def VERIFY_IN_SUBJECT : String := "demo.verify.in"

def DONE_SUBJECT : String := "demo.done"

/-! ## Verifier handler (verify_service.py, decision core shared with the
P2P reviewer_agent.py) -/

/-- The revision child the verifier derives when the score is below threshold
and retries remain: targeted at the writer, retries incremented, payload
carrying the feedback (and no draft). -/
def verifierRevisionOut (env : A2AEnvelope) (fb : String)
    (freshId : Nat) (freshTid freshSid : List Char) : A2AEnvelope :=
  { message_id := freshId
    conversation_id := env.conversation_id
    traceparent := child_traceparent env.traceparent freshTid freshSid
    sender := "verifier@v1"
    target := "writer@v1"
    ttl_ms := env.ttl_ms
    retries := env.retries + 1
    max_retries := env.max_retries
    payload := [("role", .s "verifier"), ("task", .s (pGetStrOr env.payload "task" "")),
                ("sources", .ls (pGetStrList env.payload "sources")),
                ("feedback", .s fb)] }

/-- The finalisation child the verifier derives otherwise: targeted at the
client, payload carrying the draft, its score and the sources. -/
def verifierFinalOut (env : A2AEnvelope) (score : Rat)
    (freshId : Nat) (freshTid freshSid : List Char) : A2AEnvelope :=
  { message_id := freshId
    conversation_id := env.conversation_id
    traceparent := child_traceparent env.traceparent freshTid freshSid
    sender := "verifier@v1"
    target := "client@v1"
    ttl_ms := env.ttl_ms
    retries := env.retries
    max_retries := env.max_retries
    payload := [("role", .s "verifier"), ("draft", .s (pGetStrOr env.payload "draft" "")),
                ("score", .q score),
                ("sources", .ls (pGetStrList env.payload "sources"))] }

/-- The verifier's _handle after scoring: decide between revision and
finalisation and publish exactly one child on the corresponding subject.
score and fb are score_with_llm's result. -/
def verifierHandle (minScore : Rat) (env : A2AEnvelope) (score : Rat) (fb : String)
    (freshId : Nat) (freshTid freshSid : List Char) :
    Except String (List (String × A2AEnvelope)) :=
  if score < minScore ∧ env.retries < env.max_retries then
    match env.child freshId freshTid freshSid (some "verifier@v1") (some "writer@v1")
        (some [("role", .s "verifier"), ("task", .s (pGetStrOr env.payload "task" "")),
               ("sources", .ls (pGetStrList env.payload "sources")),
               ("feedback", .s fb)])
        (some (env.retries + 1)) none none false with
    | .error e => .error e
    | .ok out => .ok [(WRITE_IN_SUBJECT, out)]
  else
    match env.child freshId freshTid freshSid (some "verifier@v1") (some "client@v1")
        (some [("role", .s "verifier"), ("draft", .s (pGetStrOr env.payload "draft" "")),
               ("score", .q score),
               ("sources", .ls (pGetStrList env.payload "sources"))])
        none none none false with
    | .error e => .error e
    | .ok out => .ok [(DONE_SUBJECT, out)]

/-! ## Writer handler (writer_service.py) -/

/-- The child the writer derives: targeted at the verifier, envelope-level
retries inherited unchanged (the incremented count appears only inside the
payload). -/
def writerOut (env : A2AEnvelope) (draft : String) (mr : Int)
    (freshId : Nat) (freshTid freshSid : List Char) : A2AEnvelope :=
  { message_id := freshId
    conversation_id := env.conversation_id
    traceparent := child_traceparent env.traceparent freshTid freshSid
    sender := "writer@v1"
    target := "verifier@v1"
    ttl_ms := env.ttl_ms
    retries := env.retries
    max_retries := env.max_retries
    payload := [("role", .s "writer"), ("task", .s (pGetStr env.payload "task" "")),
                ("topic", .s (pGetStr env.payload "topic" "Untitled")),
                ("section", .s (pGetStr env.payload "section" "Section")),
                ("draft", .s draft),
                ("sources", .ls (pGetStrList env.payload "sources")),
                ("research_notes", .s (pGetStr env.payload "research_notes" "")),
                ("max_retries", .i mr), ("retries", .i (env.retries + 1))] }

/-- The writer's _handle: generate a draft (parameter) and publish exactly
one child to the verifier subject. -/
def writerHandle (env : A2AEnvelope) (draft : String) (freshId : Nat)
    (freshTid freshSid : List Char) : Except String (List (String × A2AEnvelope)) :=
  match pGetIntE env.payload "max_retries" 2 with
  | .error e => .error e
  | .ok mr =>
    match env.child freshId freshTid freshSid (some "writer@v1") (some "verifier@v1")
        (some [("role", .s "writer"), ("task", .s (pGetStr env.payload "task" "")),
               ("topic", .s (pGetStr env.payload "topic" "Untitled")),
               ("section", .s (pGetStr env.payload "section" "Section")),
               ("draft", .s draft),
               ("sources", .ls (pGetStrList env.payload "sources")),
               ("research_notes", .s (pGetStr env.payload "research_notes" "")),
               ("max_retries", .i mr), ("retries", .i (env.retries + 1))])
        none none none false with
    | .error e => .error e
    | .ok out => .ok [(VERIFY_IN_SUBJECT, out)]

/-! ## Planner fan-out (chief_editor_service.py, section_editor_service.py) -/

/-- The per-item publish loop of a planner handler: derive one child per
delegate item, in order, threading the fresh message-id supply. -/
def publishFanout (subject : String) (mk : Nat → String → Except String A2AEnvelope) :
    Nat → List String → Except String (List (String × A2AEnvelope))
  | _, [] => .ok []
  | i, x :: xs =>
    match mk i x with
    | .error e => .error e
    | .ok env =>
      match publishFanout subject mk (i + 1) xs with
      | .error e => .error e
      | .ok rest => .ok ((subject, env) :: rest)

/-- The child the chief editor derives for one proposed topic. -/
def chiefChildOut (env : A2AEnvelope) (maxSections mr : Int) (style : String)
    (sources : List String) (topic : String)
    (freshId : Nat) (freshTid freshSid : List Char) : A2AEnvelope :=
  { message_id := freshId
    conversation_id := env.conversation_id
    traceparent := child_traceparent env.traceparent freshTid freshSid
    sender := "chiefEditor@v1"
    target := "section@v1"
    ttl_ms := env.ttl_ms
    retries := env.retries
    max_retries := env.max_retries
    payload := [("role", .s "chief"), ("topic", .s topic),
                ("max_sections", .i maxSections), ("style", .s style),
                ("sources", .ls sources), ("max_retries", .i mr)] }

/-- The per-topic child derivation of the chief editor's loop body (the
per-child max_retries read runs inside the loop, as in the source). -/
def chiefMk (env : A2AEnvelope) (maxSections : Int) (gen : Nat)
    (tids sids : Nat → List Char) (i : Nat) (t : String) : Except String A2AEnvelope :=
  match pGetIntE env.payload "max_retries" 2 with
  | .error e => .error e
  | .ok mr =>
    env.child (gen + i) (tids i) (sids i)
      (some "chiefEditor@v1") (some "section@v1")
      (some [("role", .s "chief"), ("topic", .s t),
             ("max_sections", .i maxSections),
             ("style", .s (pGetStr env.payload "style"
                "neutral, SEO-optimized, concise but informative")),
             ("sources", .ls (pGetStrList env.payload "sources")),
             ("max_retries", .i mr)])
      none none none false

/-- The chief editor's _handle: read the request fields, then fan out one
child per topic the delegate proposed. -/
def chiefHandle (env : A2AEnvelope) (topics : List String) (gen : Nat)
    (tids sids : Nat → List Char) : Except String (List (String × A2AEnvelope)) :=
  match pGetIntE env.payload "max_topics" 5 with
  | .error e => .error e
  | .ok _maxTopics =>
    match pGetIntE env.payload "max_sections" 6 with
    | .error e => .error e
    | .ok maxSections =>
      publishFanout SECTION_EDITOR_IN_SUBJECT (chiefMk env maxSections gen tids sids) 0 topics

/-- The child the section editor derives for one planned section. -/
def sectionChildOut (env : A2AEnvelope) (mr : Int) (style : String)
    (sources : List String) (sec : String)
    (freshId : Nat) (freshTid freshSid : List Char) : A2AEnvelope :=
  { message_id := freshId
    conversation_id := env.conversation_id
    traceparent := child_traceparent env.traceparent freshTid freshSid
    sender := "sectionEditor@v1"
    target := "writer@v1"
    ttl_ms := env.ttl_ms
    retries := env.retries
    max_retries := env.max_retries
    payload := [("role", .s "section"),
                ("topic", .s (pGetStr env.payload "topic" "Untitled")),
                ("section", .s sec), ("style", .s style),
                ("sources", .ls sources),
                ("research_notes", .s (pGetStr env.payload "research_notes" "")),
                ("task", .s (pGetStr env.payload "task" "")),
                ("max_retries", .i mr)] }

/-- The per-section child derivation of the section editor's loop body. -/
def sectionMk (env : A2AEnvelope) (mr : Int) (gen : Nat)
    (tids sids : Nat → List Char) (i : Nat) (sec : String) : Except String A2AEnvelope :=
  env.child (gen + i) (tids i) (sids i)
    (some "sectionEditor@v1") (some "writer@v1")
    (some [("role", .s "section"),
           ("topic", .s (pGetStr env.payload "topic" "Untitled")),
           ("section", .s sec),
           ("style", .s (pGetStr env.payload "style"
              "neutral, SEO-optimized, concise but informative")),
           ("sources", .ls (pGetStrList env.payload "sources")),
           ("research_notes", .s (pGetStr env.payload "research_notes" "")),
           ("task", .s (pGetStr env.payload "task" "")),
           ("max_retries", .i mr)])
    none none none false

/-- The section editor's _handle: read the request fields (max_retries is
read once, before the loop), then fan out one child per planned section. -/
def sectionHandle (env : A2AEnvelope) (sections : List String) (gen : Nat)
    (tids sids : Nat → List Char) : Except String (List (String × A2AEnvelope)) :=
  match pGetIntE env.payload "max_sections" 6 with
  | .error e => .error e
  | .ok _maxSections =>
    match pGetIntE env.payload "max_retries" 2 with
    | .error e => .error e
    | .ok mr =>
      publishFanout WRITE_IN_SUBJECT (sectionMk env mr gen tids sids) 0 sections

/-! ## The quality-gate loop: one conversation branch alternating verifier
and writer.  scores, feedbacks and drafts index the collaborator results by
the fresh-id counter; the result counts the revision hops. -/

/-- Run one branch through the verifier/writer loop: each list element is
the score the verifier computes on the current draft; a revision routes
through the writer back to the verifier; a finalisation stops.  Returns the
number of revision hops and the final envelope. -/
def runBranch (minScore : Rat) (fbs drafts : Nat → String)
    (tids sids : Nat → List Char) :
    List Rat → A2AEnvelope → Nat → Option (Nat × A2AEnvelope)
  | [], _, _ => none
  | sc :: rest, env, gen =>
    match verifierHandle minScore env sc (fbs gen) gen (tids gen) (sids gen) with
    | .ok [(subj, out)] =>
      if subj = DONE_SUBJECT then some (0, out)
      else
        match writerHandle out (drafts gen) (gen + 1) (tids (gen + 1)) (sids (gen + 1)) with
        | .ok [(_, next)] =>
          match runBranch minScore fbs drafts tids sids rest next (gen + 2) with
          | some (k, fin) => some (k + 1, fin)
          | none => none
        | _ => none
    | _ => none

/-! ## Aggregating client (client.py) -/

/-- Client configuration: overall and idle timeouts, and the optional
expected result count. -/
structure ClientCfg where
  overall_timeout_ms : Nat
  idle_timeout_ms : Nat
  expected_results : Option Nat
deriving DecidableEq, Repr

/-- Why the collection loop stopped. -/
inductive StopReason where
  | overallTimeout
  | idleTimeout
  | expectedCount
deriving DecidableEq, Repr

/-- The collection loop's observable outcome: when it stopped, how many
matching messages it had collected, and the idle-deadline base at the stop
(the arrival time of the most recent matching message). -/
structure StopResult where
  stop_time_ms : Nat
  received : Nat
  idle_start_ms : Nat
  reason : StopReason
deriving DecidableEq, Repr

/-- The asyncio.wait_for poll granularity of the loop (timeout=1.0 second). -/
def pollMs : Nat := 1000

/-- Python truthiness guard `if expected_results and received >= expected_results`:
an absent or zero expected count never fires. -/
def expectedHit (cfg : ClientCfg) (received : Nat) : Bool :=
  match cfg.expected_results with
  | some n => decide (n ≠ 0) && decide (n ≤ received)
  | none => false

/-- run_client's collection loop.  msgs is the ascending list of arrival
times (ms) of matching messages on the queue; t the current time; the loop
checks the overall deadline at its top, obtains the next message within one
poll interval or checks the idle deadline on a poll timeout, and resets the
idle base whenever a message is obtained.  Fuel bounds the iteration count
(the Python loop is while True). -/
def collectLoop (cfg : ClientCfg) :
    Nat → List Nat → Nat → Nat → Nat → Option StopResult
  | 0, _, _, _, _ => none
  | fuel + 1, msgs, t, idleStart, received =>
    if cfg.overall_timeout_ms < t then
      some ⟨t, received, idleStart, .overallTimeout⟩
    else
      match msgs with
      | m :: rest =>
        if m ≤ t + pollMs then
          if expectedHit cfg (received + 1) then
            some ⟨max t m, received + 1, max t m, .expectedCount⟩
          else
            collectLoop cfg fuel rest (max t m) (max t m) (received + 1)
        else
          if cfg.idle_timeout_ms < t + pollMs - idleStart then
            some ⟨t + pollMs, received, idleStart, .idleTimeout⟩
          else
            collectLoop cfg fuel msgs (t + pollMs) idleStart received
      | [] =>
        if cfg.idle_timeout_ms < t + pollMs - idleStart then
          some ⟨t + pollMs, received, idleStart, .idleTimeout⟩
        else
          collectLoop cfg fuel [] (t + pollMs) idleStart received

/-- A message delivered on the completion subject as _done_cb sees it after
JSON decoding; none models a message whose decoding raised. -/
structure DoneMsg where
  conversation_id : Option String
  body : Payload
deriving DecidableEq, Repr

/-- _done_cb: enqueue the message iff its conversation_id is an exact match
for the one the client published; a decode failure is logged and dropped. -/
def done_cb (cid : String) (queue : List DoneMsg) (msg : Option DoneMsg) : List DoneMsg :=
  match msg with
  | none => queue
  | some d => if d.conversation_id = some cid then queue ++ [d] else queue

/-- run_client's observable result: the collected count on normal loop
completion (run_client returns None and raises nothing on the timeout
paths). -/
def run_client_received (cfg : ClientCfg) (fuel : Nat) (msgs : List Nat) : Option Nat :=
  (collectLoop cfg fuel msgs 0 0 0).map (fun r => r.received)

/-- The client driver's process exit status: main() neither inspects the
collected count nor calls sys.exit, so any normal completion of run_client
exits with status 0. -/
def main_exit_code (cfg : ClientCfg) (fuel : Nat) (msgs : List Nat) : Option Nat :=
  (run_client_received cfg fuel msgs).map (fun _ => 0)

/-! ## Concrete values used by witnesses and counterexamples -/

/-- Concrete parent envelope used by the claim witnesses. -/
def wEnv : A2AEnvelope :=
  { message_id := 0, conversation_id := "conv",
    traceparent := "00-aa-bb-01".toList,
    sender := "client@v1", target := "chief@v1" }

/-- The child the derivation produces on wEnv with fresh id 1 and fresh span
id "cc". -/
def wChild : A2AEnvelope :=
  { message_id := 1, conversation_id := "conv",
    traceparent := "00-aa-cc-01".toList,
    sender := "client@v1", target := "chief@v1" }

/-- C3 counterexample input: retries 3 exceeds max_retries 2. -/
def cEnvHighRetries : A2AEnvelope :=
  { message_id := 0, conversation_id := "conv",
    traceparent := "00-aa-bb-01".toList,
    sender := "client@v1", target := "chief@v1",
    retries := 3, max_retries := 2 }

/-- Fresh 32-hex-digit trace-id supply for witnesses. -/
def wHex32 : List Char := "0123456789abcdef0123456789abcdef".toList

/-- Fresh 16-hex-digit span-id supply for witnesses. -/
def wHex16 : List Char := "0123456789abcdef".toList

/-!
# Theorems
-/

/-! ## Facts about splitDash -/

theorem splitDash_ne_nil (s : List Char) : splitDash s ≠ [] := by
  induction s with
  | nil => simp [splitDash]
  | cons c cs ih =>
    simp only [splitDash]
    split
    · simp
    · cases h : splitDash cs with
      | nil => simp
      | cons f rest => simp

theorem mem_splitDash_noDash (s : List Char) :
    ∀ f ∈ splitDash s, '-' ∉ f := by
  induction s with
  | nil =>
    intro f hf
    simp [splitDash] at hf
    simp [hf]
  | cons c cs ih =>
    intro f hf
    simp only [splitDash] at hf
    split at hf
    · rcases List.mem_cons.mp hf with h | h
      · simp [h]
      · exact ih f h
    · rename_i hc
      cases hsp : splitDash cs with
      | nil => exact absurd hsp (splitDash_ne_nil cs)
      | cons g rest =>
        rw [hsp] at hf
        rcases List.mem_cons.mp hf with h | h
        · subst h
          intro hmem
          rcases List.mem_cons.mp hmem with h | h
          · exact hc h.symm
          · exact ih g (by rw [hsp]; exact List.mem_cons_self g rest) h
        · exact ih f (by rw [hsp]; exact List.mem_cons_of_mem g h)

theorem splitDash_of_noDash (xs : List Char) (h : '-' ∉ xs) :
    splitDash xs = [xs] := by
  induction xs with
  | nil => simp [splitDash]
  | cons c cs ih =>
    have hc : c ≠ '-' := fun hc => h (by simp [hc])
    have hcs : '-' ∉ cs := fun hm => h (List.mem_cons_of_mem c hm)
    simp only [splitDash, if_neg (fun he => hc he), ih hcs]

theorem splitDash_append (xs ys : List Char) (h : '-' ∉ xs) :
    splitDash (xs ++ '-' :: ys) = xs :: splitDash ys := by
  induction xs with
  | nil => simp [splitDash]
  | cons c cs ih =>
    have hc : c ≠ '-' := fun hc => h (by simp [hc])
    have hcs : '-' ∉ cs := fun hm => h (List.mem_cons_of_mem c hm)
    simp only [List.cons_append, splitDash, if_neg (fun he => hc he), List.append_eq]
    rw [ih hcs]

theorem splitDash_joinTp (tid sid fl : List Char)
    (h1 : '-' ∉ tid) (h2 : '-' ∉ sid) (h3 : '-' ∉ fl) :
    splitDash (joinTp tid sid fl) = [['0', '0'], tid, sid, fl] := by
  have h0 : '-' ∉ ['0', '0'] := by decide
  have : joinTp tid sid fl = ['0', '0'] ++ '-' :: (tid ++ '-' :: (sid ++ '-' :: fl)) := rfl
  rw [this, splitDash_append _ _ h0, splitDash_append _ _ h1,
    splitDash_append _ _ h2, splitDash_of_noDash _ h3]

theorem isHexDigit_noDash (s : List Char) (h : ∀ c ∈ s, isHexDigit c = true) :
    '-' ∉ s := by
  intro hm
  have := h '-' hm
  simp [isHexDigit] at this

theorem length_four_exists {α : Type} {l : List α} (h : l.length = 4) :
    ∃ a b c d, l = [a, b, c, d] := by
  cases l with
  | nil => simp at h
  | cons a t =>
    cases t with
    | nil => simp at h
    | cons b t =>
      cases t with
      | nil => simp at h
      | cons c t =>
        cases t with
        | nil => simp at h
        | cons d t =>
          cases t with
          | nil => exact ⟨a, b, c, d, rfl⟩
          | cons e t => simp at h

theorem child_traceparent_of_wellFormed {parent : List Char}
    (freshTid freshSid : List Char) {v tid sp fl : List Char}
    (hs : splitDash parent = [v, tid, sp, fl]) :
    child_traceparent parent freshTid freshSid = joinTp tid freshSid fl := by
  unfold child_traceparent
  rw [hs]

theorem child_traceparent_of_malformed {parent : List Char}
    (freshTid freshSid : List Char) (h : (splitDash parent).length ≠ 4) :
    child_traceparent parent freshTid freshSid = new_traceparent freshTid freshSid := by
  unfold child_traceparent
  rcases hs : splitDash parent with _ | ⟨a, _ | ⟨b, _ | ⟨c, _ | ⟨d, _ | ⟨e, t⟩⟩⟩⟩⟩ <;>
    simp_all

/-! ## Facts about envelope validation -/

theorem validateEnvelope_ok {e e' : A2AEnvelope}
    (h : validateEnvelope e = .ok e') : e' = e := by
  unfold validateEnvelope at h
  split at h
  · exact absurd h (by simp)
  · split at h
    · exact absurd h (by simp)
    · split at h
      · exact absurd h (by simp)
      · simpa using h.symm

theorem validateEnvelope_isOk_iff (e : A2AEnvelope) :
    (validateEnvelope e).isOk = true ↔ EnvelopeWf e := by
  unfold validateEnvelope EnvelopeWf
  split <;> rename_i h1
  · simp [Except.isOk, Except.toBool]
    omega
  · split <;> rename_i h2
    · simp [Except.isOk, Except.toBool]
      omega
    · split <;> rename_i h3
      · simp [Except.isOk, Except.toBool]
        omega
      · simp [Except.isOk, Except.toBool]
        omega

theorem validateEnvelope_of_wf {e : A2AEnvelope} (h : EnvelopeWf e) :
    validateEnvelope e = .ok e := by
  obtain ⟨h1, h2, h3⟩ := h
  unfold validateEnvelope
  rw [if_neg (by omega), if_neg (by omega), if_neg (by omega)]

/-! ## C1 -/

/-- C1: every child derivation, on any parent, keeps the conversation id and
carries a fresh message id distinct from the parent's (uuid4 modelled as a
monotone fresh supply, so a parent created earlier has message_id below the
current supply value); and whenever the parent's traceparent is well-formed,
the trace-id component is kept as well. -/
theorem child_correlation_invariants
    (e : A2AEnvelope) (freshId : Nat) (freshTid freshSid : List Char)
    (sender target : Option String) (payload : Option Payload)
    (retries max_retries ttl_ms : Option Int) (keep_span : Bool)
    (e' : A2AEnvelope)
    (hid : e.message_id < freshId)
    (hsid : '-' ∉ freshSid)
    (hok : e.child freshId freshTid freshSid sender target payload
            retries max_retries ttl_ms keep_span = .ok e') :
    e'.conversation_id = e.conversation_id ∧
    (TpWellFormed e.traceparent →
      traceIdOf e'.traceparent = traceIdOf e.traceparent) ∧
    e'.message_id ≠ e.message_id := by
  unfold A2AEnvelope.child at hok
  have he' := validateEnvelope_ok hok
  subst he'
  refine ⟨rfl, ?_, ?_⟩
  · intro hwf
    obtain ⟨v, tid, sp, fl, hs⟩ := length_four_exists hwf
    have htid : '-' ∉ tid := mem_splitDash_noDash e.traceparent tid (by rw [hs]; simp)
    have hfl : '-' ∉ fl := mem_splitDash_noDash e.traceparent fl (by rw [hs]; simp)
    cases keep_span with
    | true => rfl
    | false =>
      show traceIdOf (child_traceparent e.traceparent freshTid freshSid) = _
      rw [child_traceparent_of_wellFormed freshTid freshSid hs]
      unfold traceIdOf
      rw [splitDash_joinTp tid freshSid fl htid hsid hfl, hs]
  · show freshId ≠ e.message_id
    omega

theorem child_correlation_invariants_witness :
    wEnv.message_id < 1 ∧ '-' ∉ "cc".toList ∧
    (wChild.conversation_id = wEnv.conversation_id ∧
      (TpWellFormed wEnv.traceparent →
        traceIdOf wChild.traceparent = traceIdOf wEnv.traceparent) ∧
      wChild.message_id ≠ wEnv.message_id) ∧
    traceIdOf wChild.traceparent = traceIdOf wEnv.traceparent :=
  ⟨by decide, by decide,
    child_correlation_invariants wEnv 1 [] ("cc".toList) none none none none none none
      false wChild (by decide) (by decide) (by rfl),
    (child_correlation_invariants wEnv 1 [] ("cc".toList) none none none none none none
      false wChild (by decide) (by decide) (by rfl)).2.1 (by decide)⟩

/-! ## C3 -/

/-- C3 counterexample: an envelope whose retries (3) exceeds its max_retries
(2) passes validation, and a child derivation overriding retries to 5 on a
parent with max_retries 2 also succeeds; the claimed ValidationError does
not occur. -/
theorem retries_exceed_max_accepted :
    (validateEnvelope cEnvHighRetries).isOk = true ∧
    cEnvHighRetries.max_retries < cEnvHighRetries.retries ∧
    (wEnv.child 1 [] ("cc".toList) none none none (some 5) none none false).isOk = true := by
  decide

/-- C3 amended: validation at construction enforces ttl_ms > 0 and
retries, max_retries ≥ 0 and nothing else; a successfully constructed
envelope is returned unchanged, so it satisfies exactly those bounds and may
have retries exceeding max_retries. -/
theorem validation_accepts_iff_nonneg (e : A2AEnvelope) :
    ((validateEnvelope e).isOk = true ↔ EnvelopeWf e) ∧
    ∀ e', validateEnvelope e = .ok e' → e' = e :=
  ⟨validateEnvelope_isOk_iff e, fun _ h => validateEnvelope_ok h⟩

theorem validation_accepts_iff_nonneg_witness :
    (((validateEnvelope cEnvHighRetries).isOk = true ↔ EnvelopeWf cEnvHighRetries) ∧
      ∀ e', validateEnvelope cEnvHighRetries = .ok e' → e' = cEnvHighRetries) ∧
    EnvelopeWf cEnvHighRetries :=
  ⟨validation_accepts_iff_nonneg cEnvHighRetries, by decide⟩

/-! ## C9 -/

/-- C9: on an input that does not split into exactly four hyphen-separated
fields, child trace derivation falls back (without raising: the function is
total) to a fresh root traceparent that is syntactically valid; on a
well-formed input it keeps the trace id and installs the freshly generated
span id. -/
theorem child_traceparent_malformed_fallback
    (parent freshTid freshSid : List Char)
    (h1 : IsHexOf 32 freshTid) (h2 : IsHexOf 16 freshSid) :
    (¬ TpWellFormed parent →
      ValidTraceparent (child_traceparent parent freshTid freshSid)) ∧
    (TpWellFormed parent →
      traceIdOf (child_traceparent parent freshTid freshSid) = traceIdOf parent ∧
      spanIdOf (child_traceparent parent freshTid freshSid) = some freshSid) := by
  obtain ⟨hlen1, hhex1⟩ := h1
  obtain ⟨hlen2, hhex2⟩ := h2
  have hnd1 : '-' ∉ freshTid := isHexDigit_noDash freshTid hhex1
  have hnd2 : '-' ∉ freshSid := isHexDigit_noDash freshSid hhex2
  constructor
  · intro hmal
    rw [child_traceparent_of_malformed freshTid freshSid hmal]
    refine ⟨['0', '0'], freshTid, freshSid, ['0', '1'], ?_, rfl, hlen1, hlen2, rfl,
      hhex1, hhex2, by decide⟩
    exact splitDash_joinTp freshTid freshSid ['0', '1'] hnd1 hnd2 (by decide)
  · intro hwf
    obtain ⟨v, tid, sp, fl, hs⟩ := length_four_exists hwf
    have htid : '-' ∉ tid := mem_splitDash_noDash parent tid (by rw [hs]; simp)
    have hfl : '-' ∉ fl := mem_splitDash_noDash parent fl (by rw [hs]; simp)
    rw [child_traceparent_of_wellFormed freshTid freshSid hs]
    unfold traceIdOf spanIdOf
    rw [splitDash_joinTp tid freshSid fl htid hnd2 hfl, hs]
    exact ⟨rfl, rfl⟩

theorem child_traceparent_malformed_fallback_witness :
    IsHexOf 32 wHex32 ∧ IsHexOf 16 wHex16 ∧ ¬ TpWellFormed "garbage".toList ∧
    ValidTraceparent (child_traceparent ("garbage".toList) wHex32 wHex16) :=
  ⟨by decide, by decide, by decide,
    (child_traceparent_malformed_fallback ("garbage".toList) wHex32 wHex16
      (by decide) (by decide)).1 (by decide)⟩

/-! ## Equations for the handlers' child derivations -/

theorem child_ok (e : A2AEnvelope) (freshId : Nat) (freshTid freshSid : List Char)
    (sender target : Option String) (payload : Option Payload)
    (retries max_retries ttl_ms : Option Int) (keep_span : Bool)
    (hwf : EnvelopeWf
      { message_id := freshId
        conversation_id := e.conversation_id
        traceparent := if keep_span then e.traceparent
                       else child_traceparent e.traceparent freshTid freshSid
        sender := strOr sender e.sender
        target := strOr target e.target
        ttl_ms := ttl_ms.getD e.ttl_ms
        retries := retries.getD e.retries
        max_retries := max_retries.getD e.max_retries
        payload := payload.getD [] }) :
    e.child freshId freshTid freshSid sender target payload retries max_retries ttl_ms
        keep_span =
      .ok { message_id := freshId
            conversation_id := e.conversation_id
            traceparent := if keep_span then e.traceparent
                           else child_traceparent e.traceparent freshTid freshSid
            sender := strOr sender e.sender
            target := strOr target e.target
            ttl_ms := ttl_ms.getD e.ttl_ms
            retries := retries.getD e.retries
            max_retries := max_retries.getD e.max_retries
            payload := payload.getD [] } :=
  validateEnvelope_of_wf hwf

theorem verifierHandle_eq_revision {minScore score : Rat} {env : A2AEnvelope} (fb : String)
    (freshId : Nat) (freshTid freshSid : List Char)
    (hwf : EnvelopeWf env)
    (hcond : score < minScore ∧ env.retries < env.max_retries) :
    verifierHandle minScore env score fb freshId freshTid freshSid =
      .ok [(WRITE_IN_SUBJECT, verifierRevisionOut env fb freshId freshTid freshSid)] := by
  obtain ⟨h1, h2, h3⟩ := hwf
  unfold verifierHandle
  rw [if_pos hcond, child_ok env freshId freshTid freshSid (some "verifier@v1")
    (some "writer@v1") _ (some (env.retries + 1)) none none false
    (by refine ⟨?_, ?_, ?_⟩ <;> simp <;> omega)]
  simp [verifierRevisionOut, strOr]

theorem verifierHandle_eq_final {minScore score : Rat} {env : A2AEnvelope} (fb : String)
    (freshId : Nat) (freshTid freshSid : List Char)
    (hwf : EnvelopeWf env)
    (hcond : ¬ (score < minScore ∧ env.retries < env.max_retries)) :
    verifierHandle minScore env score fb freshId freshTid freshSid =
      .ok [(DONE_SUBJECT, verifierFinalOut env score freshId freshTid freshSid)] := by
  obtain ⟨h1, h2, h3⟩ := hwf
  unfold verifierHandle
  rw [if_neg hcond, child_ok env freshId freshTid freshSid (some "verifier@v1")
    (some "client@v1") _ none none none false
    (by refine ⟨?_, ?_, ?_⟩ <;> simp <;> omega)]
  simp [verifierFinalOut, strOr]

theorem writerHandle_eq {env : A2AEnvelope} (draft : String) (freshId : Nat)
    (freshTid freshSid : List Char) (mr : Int)
    (hwf : EnvelopeWf env)
    (hmr : pGetIntE env.payload "max_retries" 2 = .ok mr) :
    writerHandle env draft freshId freshTid freshSid =
      .ok [(VERIFY_IN_SUBJECT, writerOut env draft mr freshId freshTid freshSid)] := by
  obtain ⟨h1, h2, h3⟩ := hwf
  have hc := child_ok env freshId freshTid freshSid (some "writer@v1") (some "verifier@v1")
    (some [("role", PVal.s "writer"), ("task", PVal.s (pGetStr env.payload "task" "")),
           ("topic", PVal.s (pGetStr env.payload "topic" "Untitled")),
           ("section", PVal.s (pGetStr env.payload "section" "Section")),
           ("draft", PVal.s draft),
           ("sources", PVal.ls (pGetStrList env.payload "sources")),
           ("research_notes", PVal.s (pGetStr env.payload "research_notes" "")),
           ("max_retries", PVal.i mr), ("retries", PVal.i (env.retries + 1))])
    none none none false
    (by refine ⟨?_, ?_, ?_⟩ <;> simp <;> omega)
  simp only [writerHandle, hmr, hc]
  simp [writerOut, strOr]

/-! ## C2 -/

/-- C2: the verifier's quality gate.  With score s, retries r and max_retries
m taken from the envelope: if s is below threshold and r < m it emits exactly
one child on the writer subject, targeted at the writer, with retries r + 1,
whose payload carries the feedback and no draft key; otherwise it emits
exactly one child on the completion subject carrying the draft, its score
and the sources. -/
theorem verifier_gate_transition (minScore : Rat) (env : A2AEnvelope) (score : Rat)
    (fb : String) (freshId : Nat) (freshTid freshSid : List Char)
    (hwf : EnvelopeWf env) :
    (score < minScore ∧ env.retries < env.max_retries →
      ∃ out, verifierHandle minScore env score fb freshId freshTid freshSid =
          .ok [(WRITE_IN_SUBJECT, out)] ∧
        out.target = "writer@v1" ∧
        out.retries = env.retries + 1 ∧
        out.conversation_id = env.conversation_id ∧
        pLookup out.payload "feedback" = some (.s fb) ∧
        pLookup out.payload "draft" = none) ∧
    (¬ (score < minScore ∧ env.retries < env.max_retries) →
      ∃ out, verifierHandle minScore env score fb freshId freshTid freshSid =
          .ok [(DONE_SUBJECT, out)] ∧
        out.target = "client@v1" ∧
        out.retries = env.retries ∧
        out.conversation_id = env.conversation_id ∧
        pLookup out.payload "draft" = some (.s (pGetStrOr env.payload "draft" "")) ∧
        pLookup out.payload "score" = some (.q score) ∧
        pLookup out.payload "sources" = some (.ls (pGetStrList env.payload "sources"))) := by
  constructor
  · intro hcond
    refine ⟨verifierRevisionOut env fb freshId freshTid freshSid,
      verifierHandle_eq_revision fb freshId freshTid freshSid hwf hcond, rfl, rfl, rfl, ?_, ?_⟩ <;>
      simp [verifierRevisionOut, pLookup]
  · intro hcond
    refine ⟨verifierFinalOut env score freshId freshTid freshSid,
      verifierHandle_eq_final fb freshId freshTid freshSid hwf hcond, rfl, rfl, rfl, ?_, ?_, ?_⟩ <;>
      simp [verifierFinalOut, pLookup]

theorem verifier_gate_transition_witness :
    (∃ out, verifierHandle 7 wEnv 4 "fb" 1 [] ("cc".toList) =
        .ok [(WRITE_IN_SUBJECT, out)] ∧
      out.target = "writer@v1" ∧
      out.retries = wEnv.retries + 1 ∧
      out.conversation_id = wEnv.conversation_id ∧
      pLookup out.payload "feedback" = some (.s "fb") ∧
      pLookup out.payload "draft" = none) ∧
    (∃ out, verifierHandle 7 wEnv 9 "fb" 1 [] ("cc".toList) =
        .ok [(DONE_SUBJECT, out)] ∧
      out.target = "client@v1" ∧
      out.retries = wEnv.retries ∧
      out.conversation_id = wEnv.conversation_id ∧
      pLookup out.payload "draft" = some (.s (pGetStrOr wEnv.payload "draft" "")) ∧
      pLookup out.payload "score" = some (.q 9) ∧
      pLookup out.payload "sources" = some (.ls (pGetStrList wEnv.payload "sources"))) :=
  ⟨(verifier_gate_transition 7 wEnv 4 "fb" 1 [] ("cc".toList) (by decide)).1
      ⟨by norm_num, by decide⟩,
    (verifier_gate_transition 7 wEnv 9 "fb" 1 [] ("cc".toList) (by decide)).2
      (by intro h; exact absurd h.1 (by norm_num))⟩

/-! ## C7 -/

theorem heuristic_score_bounds (text : String) :
    5.5 ≤ (heuristic_score text).1 ∧ (heuristic_score text).1 ≤ 10 := by
  simp only [heuristic_score]
  split_ifs <;> constructor <;> norm_num [le_min_iff, min_le_iff]

/-- C7 counterexample: a parseable JSON reply that simply lacks the score key
is read as float(0) and clamped to the range minimum 1.0 — not to the range
midpoint 5.5 the claim states. -/
theorem missing_score_clamped_to_one :
    (score_from_content "" (LLMContent.jsonNoScore none)).1 = 1 ∧
    (score_from_content "" (LLMContent.jsonNoScore none)).1 ≠ 11 / 2 := by
  have h1 : max (1 : Rat) (min 10 0) = 1 := by norm_num
  constructor
  · show max (1 : Rat) (min 10 0) = 1
    exact h1
  · show max (1 : Rat) (min 10 0) ≠ 11 / 2
    rw [h1]
    norm_num

/-- C7 amended: the score the transition rule sees always lies in [1, 10];
unparsable completion output falls back to the heuristic scorer, which
starts from the range midpoint 5.5; a parseable reply with the score key
missing yields the clamp minimum 1, not the midpoint; the applied score is
never 0. -/
theorem score_normalisation (draft : String) (c : LLMContent) :
    (1 ≤ (score_from_content draft c).1 ∧ (score_from_content draft c).1 ≤ 10) ∧
    ((c = .notJson ∨ ∃ fb, c = .jsonBadScore fb) →
      5.5 ≤ (score_from_content draft c).1) ∧
    (∀ fb, c = .jsonNoScore fb → (score_from_content draft c).1 = 1) ∧
    (score_from_content draft c).1 ≠ 0 := by
  have hh := heuristic_score_bounds draft
  cases c with
  | notJson =>
    refine ⟨⟨?_, hh.2⟩, fun _ => hh.1, ?_, ?_⟩
    · show (1 : Rat) ≤ (heuristic_score draft).1
      linarith [hh.1]
    · intro fb h
      simp at h
    · show (heuristic_score draft).1 ≠ 0
      intro h0
      rw [h0] at hh
      norm_num at hh
  | jsonBadScore fb =>
    refine ⟨⟨?_, hh.2⟩, fun _ => hh.1, ?_, ?_⟩
    · show (1 : Rat) ≤ (heuristic_score draft).1
      linarith [hh.1]
    · intro fb' h
      simp at h
    · show (heuristic_score draft).1 ≠ 0
      intro h0
      rw [h0] at hh
      norm_num at hh
  | jsonScore sc fb =>
    refine ⟨⟨?_, ?_⟩, ?_, ?_, ?_⟩
    · show (1 : Rat) ≤ max 1 (min 10 sc)
      exact le_max_left 1 _
    · show max (1 : Rat) (min 10 sc) ≤ 10
      exact max_le (by norm_num) (min_le_left 10 sc)
    · rintro (h | ⟨fb', h⟩) <;> simp at h
    · intro fb' h
      simp at h
    · show max (1 : Rat) (min 10 sc) ≠ 0
      intro h0
      have hm := le_max_left (1 : Rat) (min 10 sc)
      rw [h0] at hm
      norm_num at hm
  | jsonNoScore fb =>
    have h1 : max (1 : Rat) (min 10 0) = 1 := by norm_num
    refine ⟨⟨?_, ?_⟩, ?_, ?_, ?_⟩
    · show (1 : Rat) ≤ max 1 (min 10 0)
      rw [h1]
    · show max (1 : Rat) (min 10 0) ≤ 10
      rw [h1]
      norm_num
    · rintro (h | ⟨fb', h⟩) <;> simp at h
    · intro fb' h
      show max (1 : Rat) (min 10 0) = 1
      exact h1
    · show max (1 : Rat) (min 10 0) ≠ 0
      rw [h1]
      norm_num

theorem score_normalisation_witness :
    5.5 ≤ (score_from_content "" LLMContent.notJson).1 :=
  (score_normalisation "" LLMContent.notJson).2.1 (Or.inl rfl)

/-! ## C5 -/

theorem publishFanout_ok (subject : String) (mk : Nat → String → Except String A2AEnvelope)
    (f : Nat → String → A2AEnvelope)
    (hmk : ∀ i x, mk i x = .ok (f i x)) :
    ∀ (xs : List String) (i0 : Nat),
      ∃ outs, publishFanout subject mk i0 xs = .ok outs ∧
        outs.length = xs.length ∧
        ∀ j : Nat, outs[j]? = (xs[j]?).map (fun v => (subject, f (i0 + j) v)) := by
  intro xs
  induction xs with
  | nil =>
    intro i0
    exact ⟨[], rfl, rfl, fun j => by simp⟩
  | cons x xs ih =>
    intro i0
    obtain ⟨outs, ho, hl, hidx⟩ := ih (i0 + 1)
    refine ⟨(subject, f i0 x) :: outs, ?_, by simp [hl], ?_⟩
    · simp only [publishFanout, hmk i0 x, ho]
    · intro j
      cases j with
      | zero => simp
      | succ j' =>
        simp only [List.getElem?_cons_succ]
        rw [hidx j']
        have harith : i0 + 1 + j' = i0 + (j' + 1) := by omega
        rw [harith]

theorem chiefMk_eq (env : A2AEnvelope) (maxSections mr : Int) (gen : Nat)
    (tids sids : Nat → List Char) (i : Nat) (t : String)
    (hwf : EnvelopeWf env)
    (hmr : pGetIntE env.payload "max_retries" 2 = .ok mr) :
    chiefMk env maxSections gen tids sids i t =
      .ok (chiefChildOut env maxSections mr
        (pGetStr env.payload "style" "neutral, SEO-optimized, concise but informative")
        (pGetStrList env.payload "sources") t (gen + i) (tids i) (sids i)) := by
  obtain ⟨h1, h2, h3⟩ := hwf
  have hc := child_ok env (gen + i) (tids i) (sids i) (some "chiefEditor@v1")
    (some "section@v1")
    (some [("role", PVal.s "chief"), ("topic", PVal.s t),
           ("max_sections", PVal.i maxSections),
           ("style", PVal.s (pGetStr env.payload "style"
              "neutral, SEO-optimized, concise but informative")),
           ("sources", PVal.ls (pGetStrList env.payload "sources")),
           ("max_retries", PVal.i mr)])
    none none none false
    (by refine ⟨?_, ?_, ?_⟩ <;> simp <;> omega)
  simp only [chiefMk, hmr, hc]
  simp [chiefChildOut, strOr]

theorem sectionMk_eq (env : A2AEnvelope) (mr : Int) (gen : Nat)
    (tids sids : Nat → List Char) (i : Nat) (sec : String)
    (hwf : EnvelopeWf env) :
    sectionMk env mr gen tids sids i sec =
      .ok (sectionChildOut env mr
        (pGetStr env.payload "style" "neutral, SEO-optimized, concise but informative")
        (pGetStrList env.payload "sources") sec (gen + i) (tids i) (sids i)) := by
  obtain ⟨h1, h2, h3⟩ := hwf
  have hc := child_ok env (gen + i) (tids i) (sids i) (some "sectionEditor@v1")
    (some "writer@v1")
    (some [("role", PVal.s "section"),
           ("topic", PVal.s (pGetStr env.payload "topic" "Untitled")),
           ("section", PVal.s sec),
           ("style", PVal.s (pGetStr env.payload "style"
              "neutral, SEO-optimized, concise but informative")),
           ("sources", PVal.ls (pGetStrList env.payload "sources")),
           ("research_notes", PVal.s (pGetStr env.payload "research_notes" "")),
           ("task", PVal.s (pGetStr env.payload "task" "")),
           ("max_retries", PVal.i mr)])
    none none none false
    (by refine ⟨?_, ?_, ?_⟩ <;> simp <;> omega)
  simp only [sectionMk, hc]
  simp [sectionChildOut, strOr]

theorem fanout_props (subject : String) (gen : Nat) (env : A2AEnvelope)
    (mk : Nat → String → Except String A2AEnvelope)
    (f : Nat → String → A2AEnvelope) (key : String)
    (hmk : ∀ i x, mk i x = .ok (f i x))
    (hconv : ∀ i x, (f i x).conversation_id = env.conversation_id)
    (hid : ∀ i x, (f i x).message_id = gen + i)
    (hkey : ∀ i x, pLookup (f i x).payload key = some (.s x))
    (items : List String) :
    ∃ outs, publishFanout subject mk 0 items = .ok outs ∧
      outs.length = items.length ∧
      (∀ (j : Nat) (pr : String × A2AEnvelope), outs[j]? = some pr →
        pr.1 = subject ∧ pr.2.conversation_id = env.conversation_id ∧
        pr.2.message_id = gen + j ∧
        ∃ t, items[j]? = some t ∧ pLookup pr.2.payload key = some (.s t)) ∧
      (∀ (j k : Nat) (prj prk : String × A2AEnvelope),
        outs[j]? = some prj → outs[k]? = some prk → j ≠ k →
        prj.2.message_id ≠ prk.2.message_id) := by
  obtain ⟨outs, ho, hl, hidx⟩ := publishFanout_ok subject mk f hmk items 0
  have hmem : ∀ j pr, outs[j]? = some pr →
      ∃ t, items[j]? = some t ∧ pr = (subject, f j t) := by
    intro j pr hpr
    rw [hidx j] at hpr
    cases hx : items[j]? with
    | none =>
      rw [hx] at hpr
      simp at hpr
    | some t =>
      rw [hx] at hpr
      simp only [Option.map_some'] at hpr
      refine ⟨t, rfl, ?_⟩
      have h0 := Option.some.inj hpr
      simp only [Nat.zero_add] at h0
      exact h0.symm
  refine ⟨outs, ho, hl, ?_, ?_⟩
  · intro j pr hpr
    obtain ⟨t, hxt, rfl⟩ := hmem j pr hpr
    exact ⟨rfl, hconv j t, hid j t, t, hxt, hkey j t⟩
  · intro j k prj prk hj hk hne
    obtain ⟨t1, _, rfl⟩ := hmem j prj hj
    obtain ⟨t2, _, rfl⟩ := hmem k prk hk
    rw [hid j t1, hid k t2]
    omega

/-- C5: a planner stage (chief or section) whose delegate returned k items
publishes exactly k child envelopes, one per item in order, each on the
stage's output subject, sharing the parent's conversation_id, carrying a
distinct fresh message id, and carrying the item in its payload; with k = 0
it publishes nothing and still returns normally. -/
theorem planner_fanout
    (env : A2AEnvelope) (items : List String) (gen : Nat) (tids sids : Nat → List Char)
    (mt ms mr : Int)
    (hwf : EnvelopeWf env)
    (h1 : pGetIntE env.payload "max_topics" 5 = .ok mt)
    (h2 : pGetIntE env.payload "max_sections" 6 = .ok ms)
    (h3 : pGetIntE env.payload "max_retries" 2 = .ok mr) :
    (∃ outs, chiefHandle env items gen tids sids = .ok outs ∧
      outs.length = items.length ∧
      (∀ (j : Nat) (pr : String × A2AEnvelope), outs[j]? = some pr →
        pr.1 = SECTION_EDITOR_IN_SUBJECT ∧
        pr.2.conversation_id = env.conversation_id ∧
        pr.2.message_id = gen + j ∧
        ∃ t, items[j]? = some t ∧ pLookup pr.2.payload "topic" = some (.s t)) ∧
      (∀ (j k : Nat) (prj prk : String × A2AEnvelope),
        outs[j]? = some prj → outs[k]? = some prk → j ≠ k →
        prj.2.message_id ≠ prk.2.message_id)) ∧
    (∃ outs, sectionHandle env items gen tids sids = .ok outs ∧
      outs.length = items.length ∧
      (∀ (j : Nat) (pr : String × A2AEnvelope), outs[j]? = some pr →
        pr.1 = WRITE_IN_SUBJECT ∧
        pr.2.conversation_id = env.conversation_id ∧
        pr.2.message_id = gen + j ∧
        ∃ t, items[j]? = some t ∧ pLookup pr.2.payload "section" = some (.s t)) ∧
      (∀ (j k : Nat) (prj prk : String × A2AEnvelope),
        outs[j]? = some prj → outs[k]? = some prk → j ≠ k →
        prj.2.message_id ≠ prk.2.message_id)) := by
  constructor
  · obtain ⟨outs, ho, hl, hp, hd⟩ := fanout_props SECTION_EDITOR_IN_SUBJECT gen env
      (chiefMk env ms gen tids sids)
      (fun i t => chiefChildOut env ms mr
        (pGetStr env.payload "style" "neutral, SEO-optimized, concise but informative")
        (pGetStrList env.payload "sources") t (gen + i) (tids i) (sids i))
      "topic"
      (fun i t => chiefMk_eq env ms mr gen tids sids i t hwf h3)
      (fun i t => rfl) (fun i t => rfl)
      (fun i t => by simp [chiefChildOut, pLookup])
      items
    refine ⟨outs, ?_, hl, hp, hd⟩
    simp only [chiefHandle, h1, h2]
    exact ho
  · obtain ⟨outs, ho, hl, hp, hd⟩ := fanout_props WRITE_IN_SUBJECT gen env
      (sectionMk env mr gen tids sids)
      (fun i sec => sectionChildOut env mr
        (pGetStr env.payload "style" "neutral, SEO-optimized, concise but informative")
        (pGetStrList env.payload "sources") sec (gen + i) (tids i) (sids i))
      "section"
      (fun i sec => sectionMk_eq env mr gen tids sids i sec hwf)
      (fun i sec => rfl) (fun i sec => rfl)
      (fun i sec => by simp [sectionChildOut, pLookup])
      items
    refine ⟨outs, ?_, hl, hp, hd⟩
    simp only [sectionHandle, h2, h3]
    exact ho

theorem planner_fanout_witness :
    (∃ outs, chiefHandle wEnv ["t1", "t2"] 0
        (fun _ => "cc".toList) (fun _ => "cc".toList) = .ok outs ∧
      outs.length = 2) ∧
    (∃ outs, sectionHandle wEnv [] 0
        (fun _ => "cc".toList) (fun _ => "cc".toList) = .ok outs ∧
      outs.length = 0) := by
  constructor
  · obtain ⟨⟨outs, ho, hl, _, _⟩, _⟩ := planner_fanout wEnv ["t1", "t2"] 0
      (fun _ => "cc".toList) (fun _ => "cc".toList) 5 6 2 (by decide) rfl rfl rfl
    exact ⟨outs, ho, hl⟩
  · obtain ⟨_, ⟨outs, ho, hl, _, _⟩⟩ := planner_fanout wEnv [] 0
      (fun _ => "cc".toList) (fun _ => "cc".toList) 5 6 2 (by decide) rfl rfl rfl
    exact ⟨outs, ho, hl⟩

/-! ## C4 -/

/-- C4: every branch entering the verifier reaches the FINAL transition
within its retry budget: with enough scoring rounds available, the loop
finalises after k ≤ max_retries - retries revision hops, each revision
increments the envelope's retries by exactly one, and the final envelope is
addressed to the client and carries a score and a draft — also when the
budget is exhausted with a sub-threshold score. -/
theorem branch_reaches_final (minScore : Rat) (fbs drafts : Nat → String)
    (tids sids : Nat → List Char) :
    ∀ (scores : List Rat) (env : A2AEnvelope) (gen : Nat),
      EnvelopeWf env →
      (env.max_retries - env.retries).toNat < scores.length →
      ∃ k fin, runBranch minScore fbs drafts tids sids scores env gen = some (k, fin) ∧
        k ≤ (env.max_retries - env.retries).toNat ∧
        fin.retries = env.retries + (k : Int) ∧
        fin.max_retries = env.max_retries ∧
        fin.conversation_id = env.conversation_id ∧
        fin.target = "client@v1" ∧
        (∃ s, pLookup fin.payload "score" = some (.q s)) ∧
        (∃ d, pLookup fin.payload "draft" = some (.s d)) := by
  intro scores
  induction scores with
  | nil =>
    intro env gen hwf hlen
    simp at hlen
  | cons sc rest ih =>
    intro env gen hwf hlen
    obtain ⟨h1, h2, h3⟩ := hwf
    by_cases hcond : sc < minScore ∧ env.retries < env.max_retries
    · have hver := verifierHandle_eq_revision (fbs gen) gen (tids gen) (sids gen)
        ⟨h1, h2, h3⟩ hcond
      have hrev_wf : EnvelopeWf
          (verifierRevisionOut env (fbs gen) gen (tids gen) (sids gen)) := by
        refine ⟨h1, ?_, h3⟩
        show (0 : Int) ≤ env.retries + 1
        omega
      have hmrW : pGetIntE
          (verifierRevisionOut env (fbs gen) gen (tids gen) (sids gen)).payload
          "max_retries" 2 = .ok 2 := by
        simp [verifierRevisionOut, pGetIntE, pLookup]
      have hwr := writerHandle_eq (drafts gen) (gen + 1) (tids (gen + 1)) (sids (gen + 1))
        2 hrev_wf hmrW
      have hnext_wf : EnvelopeWf
          (writerOut (verifierRevisionOut env (fbs gen) gen (tids gen) (sids gen))
            (drafts gen) 2 (gen + 1) (tids (gen + 1)) (sids (gen + 1))) := by
        refine ⟨h1, ?_, h3⟩
        show (0 : Int) ≤ env.retries + 1
        omega
      have hlen' : ((writerOut (verifierRevisionOut env (fbs gen) gen (tids gen) (sids gen))
            (drafts gen) 2 (gen + 1) (tids (gen + 1)) (sids (gen + 1))).max_retries -
          (writerOut (verifierRevisionOut env (fbs gen) gen (tids gen) (sids gen))
            (drafts gen) 2 (gen + 1) (tids (gen + 1)) (sids (gen + 1))).retries).toNat <
          rest.length := by
        show (env.max_retries - (env.retries + 1)).toNat < rest.length
        simp only [List.length_cons] at hlen
        omega
      obtain ⟨k, fin, hrun, hk, hret, hmax, hconv, htgt, hscore, hdraft⟩ :=
        ih (writerOut (verifierRevisionOut env (fbs gen) gen (tids gen) (sids gen))
            (drafts gen) 2 (gen + 1) (tids (gen + 1)) (sids (gen + 1)))
          (gen + 2) hnext_wf hlen'
      have hk' : k ≤ (env.max_retries - (env.retries + 1)).toNat := hk
      have hret' : fin.retries = env.retries + 1 + (k : Int) := hret
      have hne : ¬ (WRITE_IN_SUBJECT = DONE_SUBJECT) := by decide
      refine ⟨k + 1, fin, ?_, ?_, ?_, hmax, hconv, htgt, hscore, hdraft⟩
      · simp [runBranch, hver, hwr, hrun, hne]
      · simp only [List.length_cons] at hlen
        omega
      · show fin.retries = env.retries + ((k : Int) + 1)
        omega
    · have hver := verifierHandle_eq_final (fbs gen) gen (tids gen) (sids gen)
        ⟨h1, h2, h3⟩ hcond
      refine ⟨0, verifierFinalOut env sc gen (tids gen) (sids gen), ?_,
        Nat.zero_le _, ?_, rfl, rfl, rfl, ⟨sc, ?_⟩,
        ⟨pGetStrOr env.payload "draft" "", ?_⟩⟩
      · simp [runBranch, hver]
      · show env.retries = env.retries + ((0 : Nat) : Int)
        simp
      · simp [verifierFinalOut, pLookup]
      · simp [verifierFinalOut, pLookup]

theorem branch_reaches_final_witness :
    EnvelopeWf wEnv ∧
    (wEnv.max_retries - wEnv.retries).toNat < ([2, 3, 4] : List Rat).length ∧
    (∃ k fin, runBranch 7 (fun _ => "f") (fun _ => "d")
        (fun _ => "cc".toList) (fun _ => "cc".toList) [2, 3, 4] wEnv 0 = some (k, fin) ∧
      k ≤ (wEnv.max_retries - wEnv.retries).toNat ∧
      fin.retries = wEnv.retries + (k : Int) ∧
      fin.max_retries = wEnv.max_retries ∧
      fin.conversation_id = wEnv.conversation_id ∧
      fin.target = "client@v1" ∧
      (∃ s, pLookup fin.payload "score" = some (.q s)) ∧
      (∃ d, pLookup fin.payload "draft" = some (.s d))) :=
  ⟨by decide, by decide,
    branch_reaches_final 7 (fun _ => "f") (fun _ => "d")
      (fun _ => "cc".toList) (fun _ => "cc".toList) [2, 3, 4] wEnv 0
      (by decide) (by decide)⟩

/-! ## C6 -/

theorem expectedHit_zero (cfg : ClientCfg) : expectedHit cfg 0 = false := by
  unfold expectedHit
  cases cfg.expected_results with
  | none => rfl
  | some n =>
    cases n with
    | zero => simp
    | succ n => simp

theorem collectLoop_sound (cfg : ClientCfg) :
    ∀ (fuel : Nat) (msgs : List Nat) (t idleStart received : Nat) (res : StopResult),
      msgs.Sorted (· ≤ ·) →
      (∀ m ∈ msgs, t ≤ m) →
      idleStart ≤ t →
      expectedHit cfg received = false →
      collectLoop cfg fuel msgs t idleStart received = some res →
      (res.reason = .overallTimeout → cfg.overall_timeout_ms < res.stop_time_ms) ∧
      (res.reason = .idleTimeout →
        cfg.idle_timeout_ms < res.stop_time_ms - res.idle_start_ms ∧
        (res.idle_start_ms = idleStart ∨ res.idle_start_ms ∈ msgs)) ∧
      (res.reason = .expectedCount →
        ∃ n, cfg.expected_results = some n ∧ n ≠ 0 ∧ res.received = n) := by
  intro fuel
  induction fuel with
  | zero =>
    intro msgs t idleStart received res _ _ _ _ h
    simp [collectLoop] at h
  | succ fuel ih =>
    intro msgs t idleStart received res hsort hlow hidle hhit h
    rcases msgs with _ | ⟨m, rest⟩
    · simp only [collectLoop] at h
      split at h
      · rename_i hov
        injection h with h2
        subst h2
        refine ⟨fun _ => hov, fun habs => ?_, fun habs => ?_⟩ <;> simp at habs
      · split at h
        · rename_i hidleFired
          injection h with h2
          subst h2
          refine ⟨fun habs => ?_, fun _ => ⟨hidleFired, Or.inl rfl⟩, fun habs => ?_⟩ <;>
            simp at habs
        · exact ih [] (t + pollMs) idleStart received res hsort (by simp)
            (by omega) hhit h
    · simp only [collectLoop] at h
      split at h
      · rename_i hov
        injection h with h2
        subst h2
        refine ⟨fun _ => hov, fun habs => ?_, fun habs => ?_⟩ <;> simp at habs
      · split at h
        · rename_i hin
          split at h
          · rename_i hhit2
            injection h with h2
            subst h2
            refine ⟨fun habs => ?_, fun habs => ?_, fun _ => ?_⟩
            · simp at habs
            · simp at habs
            · unfold expectedHit at hhit hhit2
              cases hce : cfg.expected_results with
              | none => rw [hce] at hhit2; simp at hhit2
              | some n =>
                rw [hce] at hhit hhit2
                simp at hhit hhit2
                refine ⟨n, rfl, hhit2.1, ?_⟩
                show received + 1 = n
                have h5 := hhit hhit2.1
                omega
          · rename_i hhit2
            have hm : t ≤ m := hlow m (List.mem_cons_self m rest)
            have hmax : max t m = m := Nat.max_eq_right hm
            rw [hmax] at h
            have hrest_sorted : rest.Sorted (· ≤ ·) := (List.sorted_cons.mp hsort).2
            have hrest_low : ∀ x ∈ rest, m ≤ x := (List.sorted_cons.mp hsort).1
            have hhit' : expectedHit cfg (received + 1) = false :=
              Bool.not_eq_true _ ▸ (by simpa using hhit2)
            have hconc := ih rest m m (received + 1) res hrest_sorted hrest_low
              (Nat.le_refl m) (by simpa using hhit2) h
            refine ⟨hconc.1, fun hr => ⟨(hconc.2.1 hr).1, ?_⟩, hconc.2.2⟩
            rcases (hconc.2.1 hr).2 with he | he
            · exact Or.inr (he ▸ List.mem_cons_self m rest)
            · exact Or.inr (List.mem_cons_of_mem m he)
        · rename_i hin
          split at h
          · rename_i hidleFired
            injection h with h2
            subst h2
            refine ⟨fun habs => ?_, fun _ => ⟨hidleFired, Or.inl rfl⟩, fun habs => ?_⟩ <;>
              simp at habs
          · have hlow' : ∀ x ∈ m :: rest, t + pollMs ≤ x := by
              intro x hx
              rcases List.mem_cons.mp hx with rfl | hx
              · omega
              · have := (List.sorted_cons.mp hsort).1 x hx
                omega
            exact ih (m :: rest) (t + pollMs) idleStart received res hsort hlow'
              (by omega) hhit h

/-- C6: the collection loop stops exactly when the first of its three events
fires at a decision point, never spuriously: a stop attributed to the
overall timeout happens past the overall deadline; a stop attributed to the
idle timeout happens more than idle_timeout after the idle base, which is
the collection start or the arrival time of the most recent matching
message (it is reset on every matching message); a stop attributed to the
expected count happens exactly when the collected count reaches the
caller-supplied nonzero expected count. -/
theorem client_stop_first_event (cfg : ClientCfg) (fuel : Nat) (msgs : List Nat)
    (res : StopResult)
    (hsorted : msgs.Sorted (· ≤ ·))
    (h : collectLoop cfg fuel msgs 0 0 0 = some res) :
    (res.reason = .overallTimeout → cfg.overall_timeout_ms < res.stop_time_ms) ∧
    (res.reason = .idleTimeout →
      cfg.idle_timeout_ms < res.stop_time_ms - res.idle_start_ms ∧
      (res.idle_start_ms = 0 ∨ res.idle_start_ms ∈ msgs)) ∧
    (res.reason = .expectedCount →
      ∃ n, cfg.expected_results = some n ∧ n ≠ 0 ∧ res.received = n) :=
  collectLoop_sound cfg fuel msgs 0 0 0 res hsorted (fun m _ => Nat.zero_le m)
    (Nat.le_refl 0) (expectedHit_zero cfg) h

theorem client_stop_first_event_witness :
    2000 < (4500 : Nat) - 1500 ∧
    ((1500 : Nat) = 0 ∨ 1500 ∈ ([500, 1000, 1500] : List Nat)) :=
  (client_stop_first_event ⟨10000, 2000, none⟩ 10 [500, 1000, 1500]
      ⟨4500, 3, 1500, .idleTimeout⟩ (by decide) (by decide)).2.1 rfl

/-! ## C8 -/

/-- C8: a message on the completion subject whose conversation_id does not
exactly match the one the client published leaves the result queue
unchanged: it is not enqueued, so it neither increments the collected count
nor resets the idle deadline (both are driven solely by dequeued items). -/
theorem nonmatching_message_ignored (cid : String) (queue : List DoneMsg) (d : DoneMsg)
    (h : d.conversation_id ≠ some cid) :
    done_cb cid queue (some d) = queue ∧
    (done_cb cid queue (some d)).length = queue.length := by
  simp only [done_cb]
  rw [if_neg h]
  exact ⟨rfl, rfl⟩

theorem nonmatching_message_ignored_witness :
    done_cb "conv" [] (some ⟨some "other", []⟩) = [] ∧
    (done_cb "conv" [] (some ⟨some "other", []⟩)).length = ([] : List DoneMsg).length :=
  nonmatching_message_ignored "conv" [] ⟨some "other", []⟩ (by decide)

/-! ## C10 -/

/-- C10 counterexample: a run that times out (idle) having collected zero
results still completes run_client normally, and the driver's exit status is
0, not non-zero as claimed. -/
theorem zero_results_exit_zero :
    run_client_received ⟨5000, 2000, none⟩ 10 [] = some 0 ∧
    (collectLoop ⟨5000, 2000, none⟩ 10 [] 0 0 0).map (fun r => r.reason) =
      some StopReason.idleTimeout ∧
    main_exit_code ⟨5000, 2000, none⟩ 10 [] = some 0 := by
  decide

/-- C10 amended: the client driver exits with status 0 on every normal
completion of run_client, whether or not any result was collected; a
zero-result timeout is reported only through the final log line, not
through the exit status. -/
theorem client_exit_always_zero (cfg : ClientCfg) (fuel : Nat) (msgs : List Nat) (n : Nat)
    (h : run_client_received cfg fuel msgs = some n) :
    main_exit_code cfg fuel msgs = some 0 := by
  unfold main_exit_code
  rw [h]
  rfl

theorem client_exit_always_zero_witness :
    main_exit_code ⟨5000, 2000, none⟩ 10 [] = some 0 :=
  client_exit_always_zero ⟨5000, 2000, none⟩ 10 [] 0 (by decide)

end A2A
